import Mathlib

/-!
Verification development for the Inngest MCP server repository.
The definitions below are a shallow embedding of `src/inngest-client.ts`
(the `InngestClient` class) and of the tool handlers in `src/index.ts`.
JS strings are Lean `String`s, JS numbers that hold integers are `Int`/`Nat`,
epoch-millisecond timestamps are `Int`, and JS object literals used as
header maps or JSON bodies are association lists with last-write-wins
insertion (`objInsert`), matching JS property-assignment semantics.
-/

namespace Inngest

/-- JS `a.includes(b)`: substring test, written out over character lists. -/
def leadMatch : List Char → List Char → Bool
  | [], _ => true
  | _ :: _, [] => false
  | a :: as, b :: bs => a == b && leadMatch as bs

def hasSub (pat : List Char) : List Char → Bool
  | [] => leadMatch pat []
  | c :: t => leadMatch pat (c :: t) || hasSub pat t

def strIncludes (s pat : String) : Bool := hasSub pat.data s.data

def strStarts (s pat : String) : Bool := leadMatch pat.data s.data

/-- Decimal digit character, as produced by JS number-to-string conversion. -/
def digitChar : Nat → Char
  | 0 => '0' | 1 => '1' | 2 => '2' | 3 => '3' | 4 => '4'
  | 5 => '5' | 6 => '6' | 7 => '7' | 8 => '8' | _ => '9'

/-- Fueled decimal rendering (structural recursion so the kernel can evaluate it). -/
def natToStrAux : Nat → Nat → List Char
  | 0, _ => []
  | fuel + 1, n => if n < 10 then [digitChar n] else natToStrAux fuel (n / 10) ++ [digitChar (n % 10)]

def natChars (n : Nat) : List Char := natToStrAux (n + 1) n

def natToStr (n : Nat) : String := ⟨natChars n⟩

def intToStr (i : Int) : String :=
  match i with
  | Int.ofNat n => natToStr n
  | Int.negSucc n => "-" ++ natToStr (n + 1)

/-- JS `Math.round(d / 1000)` for an integer millisecond difference `d`. -/
def jsRound (d : Int) : Int := Int.fdiv (d + 500) 1000

/-- Structure `InngestConfig` from `src/inngest-client.ts`. -/
structure InngestConfig where
  signingKey : String
  eventKey : Option String := none
  baseUrl : String
  env : Option String := none

/-- Property read on a JS object modelled as an association list. -/
def hdrGet : List (String × String) → String → Option String
  | [], _ => none
  | (k2, v) :: t, k => if k2 == k then some v else hdrGet t k

/-- JS property assignment `o[k] = v`: overwrite in place, else append. -/
def objInsert : List (String × String) → String → String → List (String × String)
  | [], k, v => [(k, v)]
  | (k2, v2) :: t, k, v => if k2 == k then (k2, v) :: t else (k2, v2) :: objInsert t k v

/-- JS object spread `{ ...o, ...kvs }`: assign each pair of `kvs` in order. -/
def objExtend (o : List (String × String)) (kvs : List (String × String)) : List (String × String) :=
  kvs.foldl (fun acc kv => objInsert acc kv.1 kv.2) o

/-- The auth guard of `apiRequest` (`src/inngest-client.ts`, lines 423-428):
key truthy, key not the local sentinel, base URL without local substrings. -/
def shouldAuth (cfg : InngestConfig) : Bool :=
  cfg.signingKey != "" &&
  cfg.signingKey != "local-dev-key" &&
  !(strIncludes cfg.baseUrl "localhost") &&
  !(strIncludes cfg.baseUrl "127.0.0.1")

/-- Header computation of `apiRequest`: default Content-Type, then the spread
of caller headers, then the env header, then the Authorization header. -/
def requestHeaders (cfg : InngestConfig) (caller : List (String × String)) :
    List (String × String) :=
  let base := objExtend [("Content-Type", "application/json")] caller
  let withEnv :=
    match cfg.env with
    | some e => objInsert base "X-Inngest-Env" e
    | none => base
  if shouldAuth cfg then
    objInsert withEnv "Authorization" ("Bearer " ++ cfg.signingKey)
  else withEnv

/-- The local-URL test repeated across the client methods. -/
def isLocal (baseUrl : String) : Bool :=
  strIncludes baseUrl "localhost" || strIncludes baseUrl "127.0.0.1"

end Inngest

namespace Inngest

lemma hdrGet_objInsert_self (o : List (String × String)) (k v : String) :
    hdrGet (objInsert o k v) k = some v := by
  induction o with
  | nil => simp [objInsert, hdrGet]
  | cons p t ih =>
    obtain ⟨k2, v2⟩ := p
    by_cases h : (k2 == k) = true
    · simp [objInsert, hdrGet, h]
    · simp only [Bool.not_eq_true] at h
      simp [objInsert, hdrGet, h, ih]

lemma hdrGet_objInsert_ne (o : List (String × String)) (k v k2 : String)
    (h : (k == k2) = false) : hdrGet (objInsert o k v) k2 = hdrGet o k2 := by
  induction o with
  | nil => simp [objInsert, hdrGet, h]
  | cons p t ih =>
    obtain ⟨k3, v3⟩ := p
    by_cases h3 : (k3 == k) = true
    · have hk : k3 = k := by simpa using h3
      subst hk
      simp [objInsert, hdrGet, h3, h]
    · simp only [Bool.not_eq_true] at h3
      simp [objInsert, hdrGet, h3, ih]

lemma hdrGet_none_of_not_mem (l : List (String × String)) (k : String)
    (h : k ∉ l.map Prod.fst) : hdrGet l k = none := by
  induction l with
  | nil => rfl
  | cons p t ih =>
    obtain ⟨k2, v2⟩ := p
    simp only [List.map_cons, List.mem_cons] at h
    push_neg at h
    have hne : (k2 == k) = false := by
      simp only [beq_eq_false_iff_ne, ne_eq]
      exact fun hk => h.1 hk.symm
    simp [hdrGet, hne, ih h.2]

lemma hdrGet_objExtend (caller : List (String × String)) (o : List (String × String))
    (k : String) (hnd : (caller.map Prod.fst).Nodup) :
    hdrGet (objExtend o caller) k =
      (match hdrGet caller k with
       | some v => some v
       | none => hdrGet o k) := by
  induction caller generalizing o with
  | nil => simp [objExtend, hdrGet]
  | cons p t ih =>
    obtain ⟨k1, v1⟩ := p
    simp only [List.map_cons, List.nodup_cons] at hnd
    have step : objExtend o ((k1, v1) :: t) = objExtend (objInsert o k1 v1) t := rfl
    rw [step, ih (objInsert o k1 v1) hnd.2]
    by_cases h1 : (k1 == k) = true
    · have hk : k1 = k := by simpa using h1
      subst hk
      have ht : hdrGet t k1 = none := hdrGet_none_of_not_mem t k1 hnd.1
      simp [hdrGet, h1, ht, hdrGet_objInsert_self]
    · simp only [Bool.not_eq_true] at h1
      simp [hdrGet, h1, hdrGet_objInsert_ne o k1 v1 k h1]

end Inngest

namespace Inngest

/-- Claim C1: for every request the client issues (all call sites pass no extra
headers), the `Authorization: Bearer <signingKey>` header is attached exactly
when the signing key is nonempty, differs from the sentinel `local-dev-key`,
and the base URL contains neither `localhost` nor `127.0.0.1`; the
`X-Inngest-Env` header is attached whenever the environment tag is set,
independently of the auth decision. -/
theorem auth_header_iff (cfg : InngestConfig) :
    (hdrGet (requestHeaders cfg []) "Authorization" = some ("Bearer " ++ cfg.signingKey) ↔
      (cfg.signingKey ≠ "" ∧ cfg.signingKey ≠ "local-dev-key" ∧
       strIncludes cfg.baseUrl "localhost" = false ∧
       strIncludes cfg.baseUrl "127.0.0.1" = false)) ∧
    (∀ e, cfg.env = some e →
      hdrGet (requestHeaders cfg []) "X-Inngest-Env" = some e) := by
  have hbase : objExtend [("Content-Type", "application/json")] [] =
      [("Content-Type", "application/json")] := rfl
  have hAuthShape : ∀ h : List (String × String),
      hdrGet (if shouldAuth cfg then
                objInsert h "Authorization" ("Bearer " ++ cfg.signingKey)
              else h) "Authorization" =
        (if shouldAuth cfg then some ("Bearer " ++ cfg.signingKey)
         else hdrGet h "Authorization") := by
    intro h
    by_cases hs : shouldAuth cfg = true
    · simp [hs, hdrGet_objInsert_self]
    · simp only [Bool.not_eq_true] at hs
      simp [hs]
  constructor
  · have hnone : hdrGet
        (match cfg.env with
         | some e => objInsert [("Content-Type", "application/json")] "X-Inngest-Env" e
         | none => [("Content-Type", "application/json")]) "Authorization" = none := by
      cases cfg.env with
      | none => decide
      | some e =>
        rw [hdrGet_objInsert_ne _ _ _ _ (by decide)]
        decide
    rw [show requestHeaders cfg [] =
          (if shouldAuth cfg then
            objInsert
              (match cfg.env with
               | some e => objInsert [("Content-Type", "application/json")] "X-Inngest-Env" e
               | none => [("Content-Type", "application/json")])
              "Authorization" ("Bearer " ++ cfg.signingKey)
           else
            (match cfg.env with
             | some e => objInsert [("Content-Type", "application/json")] "X-Inngest-Env" e
             | none => [("Content-Type", "application/json")])) from rfl]
    rw [hAuthShape]
    by_cases hs : shouldAuth cfg = true
    · simp only [hs, if_pos]
      constructor
      · intro _
        have := hs
        simp only [shouldAuth, Bool.and_eq_true, bne_iff_ne, ne_eq,
          Bool.not_eq_true'] at this
        exact ⟨this.1.1.1, this.1.1.2, this.1.2, this.2⟩
      · intro _; trivial
    · simp only [Bool.not_eq_true] at hs
      simp only [hs, if_neg Bool.false_ne_true, hnone]
      constructor
      · intro h; cases h
      · intro hcond
        have : shouldAuth cfg = true := by
          simp only [shouldAuth, Bool.and_eq_true, bne_iff_ne, ne_eq,
            Bool.not_eq_true']
          exact ⟨⟨⟨hcond.1, hcond.2.1⟩, hcond.2.2.1⟩, hcond.2.2.2⟩
        rw [this] at hs; cases hs
  · intro e he
    have henv : hdrGet
        (match cfg.env with
         | some e2 => objInsert [("Content-Type", "application/json")] "X-Inngest-Env" e2
         | none => [("Content-Type", "application/json")]) "X-Inngest-Env" = some e := by
      rw [he]
      exact hdrGet_objInsert_self _ _ _
    rw [show requestHeaders cfg [] =
          (if shouldAuth cfg then
            objInsert
              (match cfg.env with
               | some e2 => objInsert [("Content-Type", "application/json")] "X-Inngest-Env" e2
               | none => [("Content-Type", "application/json")])
              "Authorization" ("Bearer " ++ cfg.signingKey)
           else
            (match cfg.env with
             | some e2 => objInsert [("Content-Type", "application/json")] "X-Inngest-Env" e2
             | none => [("Content-Type", "application/json")])) from rfl]
    by_cases hs : shouldAuth cfg = true
    · rw [if_pos hs, hdrGet_objInsert_ne _ _ _ _ (by decide)]
      exact henv
    · simp only [Bool.not_eq_true] at hs
      rw [hs, if_neg Bool.false_ne_true]
      exact henv

/-- Witness for claim C1 at a concrete cloud configuration with an env tag. -/
theorem auth_header_iff_witness :
    hdrGet (requestHeaders
        { signingKey := "signkey-prod-abc", baseUrl := "https://api.inngest.com",
          env := some "production" } []) "Authorization" =
      some ("Bearer " ++ "signkey-prod-abc") ∧
    hdrGet (requestHeaders
        { signingKey := "signkey-prod-abc", baseUrl := "https://api.inngest.com",
          env := some "production" } []) "X-Inngest-Env" = some "production" := by
  refine ⟨?_, ?_⟩
  · exact (auth_header_iff _).1.mpr ⟨by decide, by decide, by decide, by decide⟩
  · exact (auth_header_iff _).2 "production" rfl

end Inngest

namespace Inngest

/-- Claim C2 counterexample: a production-looking key over a localhost base URL
is one of the combinations the claim says must carry an Authorization header,
yet the code attaches none, because the auth guard also requires a non-local
base URL. -/
theorem auth_localhost_prodkey_no_header :
    ({ signingKey := "signkey-prod-abc", baseUrl := "http://localhost:8288" } :
        InngestConfig).signingKey ≠ "local-dev-key" ∧
    hdrGet (requestHeaders
        { signingKey := "signkey-prod-abc", baseUrl := "http://localhost:8288" } [])
      "Authorization" = none := by
  refine ⟨by decide, ?_⟩
  decide

/-- Claim C2 (amended): the Authorization header is absent whenever the base
URL contains a local substring, or the key is empty or the sentinel; it is
present, with value `Bearer <signingKey>`, only when the key is nonempty,
differs from the sentinel, and the base URL contains neither local substring. -/
theorem auth_header_cases (cfg : InngestConfig) :
    ((strIncludes cfg.baseUrl "localhost" = true ∨
      strIncludes cfg.baseUrl "127.0.0.1" = true ∨
      cfg.signingKey = "" ∨ cfg.signingKey = "local-dev-key") →
      hdrGet (requestHeaders cfg []) "Authorization" = none) ∧
    ((cfg.signingKey ≠ "" ∧ cfg.signingKey ≠ "local-dev-key" ∧
      strIncludes cfg.baseUrl "localhost" = false ∧
      strIncludes cfg.baseUrl "127.0.0.1" = false) →
      hdrGet (requestHeaders cfg []) "Authorization" =
        some ("Bearer " ++ cfg.signingKey)) := by
  have hnone : hdrGet
      (match cfg.env with
       | some e => objInsert [("Content-Type", "application/json")] "X-Inngest-Env" e
       | none => [("Content-Type", "application/json")]) "Authorization" = none := by
    cases cfg.env with
    | none => decide
    | some e =>
      rw [hdrGet_objInsert_ne _ _ _ _ (by decide)]
      decide
  have hshape : requestHeaders cfg [] =
      (if shouldAuth cfg then
        objInsert
          (match cfg.env with
           | some e => objInsert [("Content-Type", "application/json")] "X-Inngest-Env" e
           | none => [("Content-Type", "application/json")])
          "Authorization" ("Bearer " ++ cfg.signingKey)
       else
        (match cfg.env with
         | some e => objInsert [("Content-Type", "application/json")] "X-Inngest-Env" e
         | none => [("Content-Type", "application/json")])) := rfl
  constructor
  · intro hcond
    have hs : shouldAuth cfg = false := by
      cases hb : shouldAuth cfg with
      | false => rfl
      | true =>
        exfalso
        have hc := hb
        simp only [shouldAuth, Bool.and_eq_true, bne_iff_ne, ne_eq,
          Bool.not_eq_true'] at hc
        obtain ⟨⟨⟨h1, h2⟩, h3⟩, h4⟩ := hc
        rcases hcond with h | h | h | h
        · rw [h] at h3; cases h3
        · rw [h] at h4; cases h4
        · exact h1 h
        · exact h2 h
    rw [hshape, hs, if_neg Bool.false_ne_true]
    exact hnone
  · intro hcond
    have hs : shouldAuth cfg = true := by
      simp only [shouldAuth, Bool.and_eq_true, bne_iff_ne, ne_eq, Bool.not_eq_true']
      exact ⟨⟨⟨hcond.1, hcond.2.1⟩, hcond.2.2.1⟩, hcond.2.2.2⟩
    rw [hshape, hs, if_pos rfl]
    exact hdrGet_objInsert_self _ _ _

/-- Witness for the amended claim C2 at two concrete configurations. -/
theorem auth_header_cases_witness :
    hdrGet (requestHeaders
        { signingKey := "local-dev-key", baseUrl := "http://127.0.0.1:8288" } [])
      "Authorization" = none ∧
    hdrGet (requestHeaders
        { signingKey := "signkey-prod-abc", baseUrl := "https://api.inngest.com" } [])
      "Authorization" = some ("Bearer " ++ "signkey-prod-abc") := by
  constructor
  · exact (auth_header_cases _).1 (Or.inr (Or.inr (Or.inr rfl)))
  · exact (auth_header_cases _).2 ⟨by decide, by decide, by decide, by decide⟩

end Inngest

namespace Inngest

/-- The transport response seen by `apiRequest`: HTTP status data plus the body,
both as raw text (read on the error path) and as the parsed JSON value of type
`α` (read on the success path). -/
structure HttpResp (α : Type) where
  ok : Bool
  status : Nat
  statusText : String
  bodyText : String
  json : α

/-- Structure `ApiResponse` from `src/inngest-client.ts`: the last-response snapshot. -/
structure ApiResponse (α : Type) where
  url : String
  status : Nat
  data : α
  timestamp : String

/-- Structure `ApiError` from `src/inngest-client.ts`. -/
structure ApiError where
  message : String
  timestamp : String

/-- The mutable diagnostic fields of `InngestClient`. -/
structure ClientState (α : Type) where
  lastResponse : Option (ApiResponse α) := none
  lastError : Option ApiError := none

/-- The error message thrown by `apiRequest` on a non-ok response. -/
def apiErrMsg {α : Type} (r : HttpResp α) : String :=
  "Inngest API error: " ++ (natToStr r.status ++ (" " ++ (r.statusText ++ (" - " ++ r.bodyText))))

/-- The observable effect of one `apiRequest` call. -/
structure ApiCall (α : Type) where
  result : Except String α
  state : ClientState α
  url : String
  headers : List (String × String)

/-- Method `InngestClient.apiRequest`: build the URL and headers, and either fail with
the status-carrying message (state untouched) or return the parsed body and
record the last-response snapshot. -/
def apiRequest {α : Type} (cfg : InngestConfig) (now endpoint : String)
    (caller : List (String × String)) (r : HttpResp α) (st : ClientState α) :
    ApiCall α :=
  { url := cfg.baseUrl ++ endpoint
    headers := requestHeaders cfg caller
    result := if r.ok then Except.ok r.json else Except.error (apiErrMsg r)
    state :=
      if r.ok then
        { st with lastResponse := some ⟨cfg.baseUrl ++ endpoint, r.status, r.json, now⟩ }
      else st }

/-- Claim C5: on a non-success status `apiRequest` fails with a message made of
the numeric status, the status text and the raw body, leaving the diagnostic
snapshot untouched; on success it returns the parsed body, records the
`{url, status, data, timestamp}` snapshot, and leaves the last error alone. -/
theorem apiRequest_success_error_contract {α : Type} (cfg : InngestConfig)
    (now endpoint : String) (caller : List (String × String))
    (r : HttpResp α) (st : ClientState α) :
    (r.ok = false →
      (apiRequest cfg now endpoint caller r st).result =
        Except.error
          ("Inngest API error: " ++
            (natToStr r.status ++ (" " ++ (r.statusText ++ (" - " ++ r.bodyText))))) ∧
      (apiRequest cfg now endpoint caller r st).state = st) ∧
    (r.ok = true →
      (apiRequest cfg now endpoint caller r st).result = Except.ok r.json ∧
      (apiRequest cfg now endpoint caller r st).state.lastResponse =
        some ⟨cfg.baseUrl ++ endpoint, r.status, r.json, now⟩ ∧
      (apiRequest cfg now endpoint caller r st).state.lastError = st.lastError) := by
  constructor
  · intro hok
    simp [apiRequest, hok, apiErrMsg]
  · intro hok
    simp [apiRequest, hok]

/-- Witness for claim C5: one failing and one succeeding concrete call. -/
theorem apiRequest_success_error_contract_witness :
    ((apiRequest ({ signingKey := "k", baseUrl := "https://api.inngest.com" } : InngestConfig)
        "t0" "/v1/events" []
        ({ ok := false, status := 404, statusText := "Not Found",
           bodyText := "missing", json := 0 } : HttpResp Nat) {}).result =
      Except.error
        ("Inngest API error: " ++
          (natToStr 404 ++ (" " ++ ("Not Found" ++ (" - " ++ "missing")))))) ∧
    ((apiRequest ({ signingKey := "k", baseUrl := "https://api.inngest.com" } : InngestConfig)
        "t0" "/v1/events" []
        ({ ok := true, status := 200, statusText := "OK",
           bodyText := "", json := 7 } : HttpResp Nat) {}).result =
      Except.ok 7) := by
  constructor
  · exact ((apiRequest_success_error_contract _ _ _ _ _ _).1 rfl).1
  · exact ((apiRequest_success_error_contract _ _ _ _ _ _).2 rfl).1

end Inngest

namespace Inngest

/-- Claim C6 counterexample: a caller-supplied `Content-Type` header is spread
over the default after it, so it does override `application/json`, contrary to
the claim. Shown at a concrete configuration. -/
theorem contentType_caller_override_cex :
    hdrGet (requestHeaders
        ({ signingKey := "test-key", baseUrl := "https://api.inngest.com" } : InngestConfig)
        [("Content-Type", "text/plain")]) "Content-Type" = some "text/plain" ∧
    "text/plain" ≠ "application/json" := by
  refine ⟨?_, by decide⟩
  decide

/-- Claim C6 (amended): the outgoing headers are the caller-supplied headers
spread over the default `Content-Type: application/json` (so a caller-supplied
Content-Type overrides the default, and the default is used only when the
caller supplies none), with the computed env/auth headers assigned last, so the
Authorization header (when auth applies) and the X-Inngest-Env header (when the
env tag is set) always win over any caller value for their keys.
Caller headers model a JS object, hence the distinct-keys hypothesis. -/
theorem headers_merge_semantics (cfg : InngestConfig)
    (caller : List (String × String)) (hnd : (caller.map Prod.fst).Nodup) :
    (∀ v, hdrGet caller "Content-Type" = some v →
      hdrGet (requestHeaders cfg caller) "Content-Type" = some v) ∧
    (hdrGet caller "Content-Type" = none →
      hdrGet (requestHeaders cfg caller) "Content-Type" = some "application/json") ∧
    (shouldAuth cfg = true →
      hdrGet (requestHeaders cfg caller) "Authorization" =
        some ("Bearer " ++ cfg.signingKey)) ∧
    (∀ e, cfg.env = some e →
      hdrGet (requestHeaders cfg caller) "X-Inngest-Env" = some e) := by
  have hshape : requestHeaders cfg caller =
      (if shouldAuth cfg then
        objInsert
          (match cfg.env with
           | some e => objInsert (objExtend [("Content-Type", "application/json")] caller)
               "X-Inngest-Env" e
           | none => objExtend [("Content-Type", "application/json")] caller)
          "Authorization" ("Bearer " ++ cfg.signingKey)
       else
        (match cfg.env with
         | some e => objInsert (objExtend [("Content-Type", "application/json")] caller)
             "X-Inngest-Env" e
         | none => objExtend [("Content-Type", "application/json")] caller)) := rfl
  have hct : ∀ k : String, (k == "Content-Type") = false →
      ∀ o v2, hdrGet (objInsert o k v2) "Content-Type" = hdrGet o "Content-Type" := by
    intro k hk o v2
    exact hdrGet_objInsert_ne o k v2 "Content-Type" hk
  have hctBase : hdrGet (requestHeaders cfg caller) "Content-Type" =
      hdrGet (objExtend [("Content-Type", "application/json")] caller) "Content-Type" := by
    rw [hshape]
    by_cases hs : shouldAuth cfg = true
    · rw [if_pos hs, hdrGet_objInsert_ne _ _ _ _ (by decide)]
      cases cfg.env with
      | none => rfl
      | some e => exact hdrGet_objInsert_ne _ _ _ _ (by decide)
    · simp only [Bool.not_eq_true] at hs
      rw [hs, if_neg Bool.false_ne_true]
      cases cfg.env with
      | none => rfl
      | some e => exact hdrGet_objInsert_ne _ _ _ _ (by decide)
  refine ⟨?_, ?_, ?_, ?_⟩
  · intro v hv
    rw [hctBase, hdrGet_objExtend caller _ _ hnd, hv]
  · intro hv
    rw [hctBase, hdrGet_objExtend caller _ _ hnd, hv]
    decide
  · intro hs
    rw [hshape, if_pos hs]
    exact hdrGet_objInsert_self _ _ _
  · intro e he
    rw [hshape]
    by_cases hs : shouldAuth cfg = true
    · rw [if_pos hs, hdrGet_objInsert_ne _ _ _ _ (by decide), he]
      exact hdrGet_objInsert_self _ _ _
    · simp only [Bool.not_eq_true] at hs
      rw [hs, if_neg Bool.false_ne_true, he]
      exact hdrGet_objInsert_self _ _ _

/-- Witness for the amended claim C6 at concrete headers: a caller Content-Type
wins, the default applies when the caller sends none, and the computed
Authorization and X-Inngest-Env values beat caller-supplied ones. -/
theorem headers_merge_semantics_witness :
    hdrGet (requestHeaders
        ({ signingKey := "test-key", baseUrl := "https://api.inngest.com" } : InngestConfig)
        [("Content-Type", "text/csv")]) "Content-Type" = some "text/csv" ∧
    hdrGet (requestHeaders
        ({ signingKey := "test-key", baseUrl := "https://api.inngest.com" } : InngestConfig)
        [("X-Other", "1")]) "Content-Type" = some "application/json" ∧
    hdrGet (requestHeaders
        ({ signingKey := "test-key", baseUrl := "https://api.inngest.com" } : InngestConfig)
        [("Authorization", "Bearer forged")]) "Authorization" =
      some ("Bearer " ++ "test-key") ∧
    hdrGet (requestHeaders
        ({ signingKey := "test-key", baseUrl := "https://api.inngest.com",
           env := some "production" } : InngestConfig)
        [("X-Inngest-Env", "spoofed")]) "X-Inngest-Env" = some "production" := by
  refine ⟨?_, ?_, ?_, ?_⟩
  · exact (headers_merge_semantics _ _ (by decide)).1 "text/csv" (by decide)
  · exact (headers_merge_semantics _ _ (by decide)).2.1 (by decide)
  · exact (headers_merge_semantics _ _ (by decide)).2.2.1 (by decide)
  · exact (headers_merge_semantics _ _ (by decide)).2.2.2 "production" rfl

end Inngest

namespace Inngest

/-- Run status union from `WorkflowRun` in `src/inngest-client.ts`. -/
inductive RunStatus
  | Running | Completed | Failed | Cancelled | Paused
deriving DecidableEq

/-- Step status union from `WorkflowStep` in `src/inngest-client.ts`. -/
inductive StepStatus
  | Running | Completed | Failed | Skipped
deriving DecidableEq

/-- Structure `WorkflowStep` from `src/inngest-client.ts`. Timestamps are epoch ms;
`output` is carried as its pretty-printed JSON text when present and truthy. -/
structure WorkflowStep where
  id : String
  name : String
  status : StepStatus
  started_at : Int
  ended_at : Option Int := none
  output : Option String := none
  error : Option String := none
  duration_ms : Option Int := none
deriving DecidableEq

/-- Structure `WorkflowRun` from `src/inngest-client.ts`, with the same conventions. -/
structure WorkflowRun where
  run_id : String
  run_started_at : Int
  function_id : String
  function_version : Int
  environment_id : String
  event_id : String
  status : RunStatus
  ended_at : Option Int := none
  output : Option String := none
  steps : Option (List WorkflowStep) := none
deriving DecidableEq

/-- Parsed JSON body of a run-details response: `dataField = some x` means the
object has a `data` key (inner `some` when that value is truthy), and
`runIdField = some r` means the object has a `run_id` key and the object as a
whole reads back as the run `r`. -/
structure RunBody where
  dataField : Option (Option WorkflowRun) := none
  runIdField : Option WorkflowRun := none
deriving DecidableEq

/-- The response-format dispatch inside `getRunDetails`: prefer a truthy
`data` field, else the bare object when a `run_id` key is present. -/
def extractRun (b : RunBody) : Option WorkflowRun :=
  match b.dataField with
  | some (some r) => some r
  | _ => b.runIdField

/-- The shared candidate-endpoint loop of `getRunDetails` / `cancelRun` /
`replayRun`: call `apiRequest` per endpoint in order; on thrown error record
`_lastError` and continue; on success apply the per-operation result check and
return, or silently continue when it yields nothing; when the list is
exhausted, throw the aggregate message built from the last recorded error.
Also returns the final state and the list of URLs actually called. -/
def tryLoop {α β : Type} (cfg : InngestConfig) (net : String → HttpResp α)
    (now : String) (extract : α → Option β) (failMsg : Option String → String) :
    List String → ClientState α → Option String →
      Except String β × ClientState α × List String
  | [], st, lastErr => (Except.error (failMsg lastErr), st, [])
  | ep :: rest, st, lastErr =>
    let call := apiRequest cfg now ep [] (net (cfg.baseUrl ++ ep)) st
    match call.result with
    | Except.ok body =>
      match extract body with
      | some b => (Except.ok b, call.state, [cfg.baseUrl ++ ep])
      | none =>
        let r := tryLoop cfg net now extract failMsg rest call.state lastErr
        (r.1, r.2.1, (cfg.baseUrl ++ ep) :: r.2.2)
    | Except.error msg =>
      let st2 : ClientState α := { call.state with lastError := some ⟨msg, now⟩ }
      let r := tryLoop cfg net now extract failMsg rest st2 (some msg)
      (r.1, r.2.1, (cfg.baseUrl ++ ep) :: r.2.2)

/-- Method `InngestClient.getRunDetails`: local short-circuit, else the candidate
paths `/v0/runs/{id}`, `/v1/runs/{id}`, `/runs/{id}` in order. -/
def getRunDetails (cfg : InngestConfig) (net : String → HttpResp RunBody)
    (now runId : String) (st : ClientState RunBody) :
    Except String WorkflowRun × ClientState RunBody × List String :=
  if isLocal cfg.baseUrl then
    (Except.error
      "Run details not available in development mode. Please use Inngest Cloud for run management features.",
     st, [])
  else
    tryLoop cfg net now extractRun
      (fun le => "Failed to get run details for " ++
        (runId ++ (". Last error: " ++ le.getD "Unknown error")))
      ["/v0/runs/" ++ runId, "/v1/runs/" ++ runId, "/runs/" ++ runId] st none

/-- Method `InngestClient.cancelRun`: local short-circuit, else POST to the cancel
candidate paths in order; any HTTP success yields `{success: true}`. -/
def cancelRun (cfg : InngestConfig) (net : String → HttpResp Unit)
    (now runId : String) (st : ClientState Unit) :
    Except String Bool × ClientState Unit × List String :=
  if isLocal cfg.baseUrl then
    (Except.error
      "Run cancellation not available in development mode. Please use Inngest Cloud for run management features.",
     st, [])
  else
    tryLoop cfg net now (fun _ => some true)
      (fun le => "Failed to cancel run " ++
        (runId ++ (". Last error: " ++ le.getD "Unknown error")))
      ["/v0/runs/" ++ (runId ++ "/cancel"), "/v1/runs/" ++ (runId ++ "/cancel"),
       "/runs/" ++ (runId ++ "/cancel")] st none

/-- Method `InngestClient.replayRun`: local short-circuit, else POST to the replay
candidate paths, then the retry-named variants, in order. -/
def replayRun (cfg : InngestConfig) (net : String → HttpResp Unit)
    (now runId : String) (st : ClientState Unit) :
    Except String Bool × ClientState Unit × List String :=
  if isLocal cfg.baseUrl then
    (Except.error
      "Run replay not available in development mode. Please use Inngest Cloud for run management features.",
     st, [])
  else
    tryLoop cfg net now (fun _ => some true)
      (fun le => "Failed to replay run " ++
        (runId ++ (". Last error: " ++ le.getD "Unknown error")))
      ["/v0/runs/" ++ (runId ++ "/replay"), "/v1/runs/" ++ (runId ++ "/replay"),
       "/runs/" ++ (runId ++ "/replay"), "/v0/runs/" ++ (runId ++ "/retry"),
       "/v1/runs/" ++ (runId ++ "/retry"), "/runs/" ++ (runId ++ "/retry")] st none

end Inngest

namespace Inngest

/-- Claim C4: with a local base URL, run details, cancel and replay all fail
immediately with their fixed development-mode message — which contains the
phrase `not available in development mode` — and the list of URLs actually
called is empty, so no HTTP call is issued. -/
theorem local_mode_short_circuit (cfg : InngestConfig)
    (hloc : isLocal cfg.baseUrl = true) (now runId : String)
    (stR : ClientState RunBody) (stU : ClientState Unit)
    (netR : String → HttpResp RunBody) (netU : String → HttpResp Unit) :
    (getRunDetails cfg netR now runId stR =
      (Except.error
        "Run details not available in development mode. Please use Inngest Cloud for run management features.",
       stR, []) ∧
     cancelRun cfg netU now runId stU =
      (Except.error
        "Run cancellation not available in development mode. Please use Inngest Cloud for run management features.",
       stU, []) ∧
     replayRun cfg netU now runId stU =
      (Except.error
        "Run replay not available in development mode. Please use Inngest Cloud for run management features.",
       stU, [])) ∧
    strIncludes
      "Run details not available in development mode. Please use Inngest Cloud for run management features."
      "not available in development mode" = true ∧
    strIncludes
      "Run cancellation not available in development mode. Please use Inngest Cloud for run management features."
      "not available in development mode" = true ∧
    strIncludes
      "Run replay not available in development mode. Please use Inngest Cloud for run management features."
      "not available in development mode" = true := by
  refine ⟨⟨?_, ?_, ?_⟩, by decide, by decide, by decide⟩
  · simp [getRunDetails, hloc]
  · simp [cancelRun, hloc]
  · simp [replayRun, hloc]

/-- Witness for claim C4 at a localhost configuration. -/
theorem local_mode_short_circuit_witness :
    isLocal "http://localhost:8288" = true ∧
    (getRunDetails ({ signingKey := "local-dev-key", baseUrl := "http://localhost:8288" } : InngestConfig)
        (fun _ => ⟨true, 200, "OK", "", {}⟩) "t0" "run-123" {}).2.2 = [] := by
  refine ⟨by decide, ?_⟩
  exact congrArg (fun p => p.2.2)
    ((local_mode_short_circuit
      ({ signingKey := "local-dev-key", baseUrl := "http://localhost:8288" } : InngestConfig)
      (by decide) "t0" "run-123" {} {}
      (fun _ => ⟨true, 200, "OK", "", {}⟩) (fun _ => ⟨true, 200, "OK", "", ()⟩)).1.1)

end Inngest

namespace Inngest

/-- Claim C3: the ordered-candidate operations (run details, cancel, replay on
a non-local base URL) try their fixed endpoint lists strictly in order and stop
at the first success: when only the third candidate succeeds, exactly the first
three URLs are called and the result comes from the third; when every candidate
fails, the operation throws the aggregate message naming the last underlying
failure. -/
theorem candidate_paths_order (cfg : InngestConfig)
    (hloc : isLocal cfg.baseUrl = false) (now runId : String) :
    (∀ (net : String → HttpResp RunBody) (st : ClientState RunBody) (r : WorkflowRun),
      (net (cfg.baseUrl ++ ("/v0/runs/" ++ runId))).ok = false →
      (net (cfg.baseUrl ++ ("/v1/runs/" ++ runId))).ok = false →
      (net (cfg.baseUrl ++ ("/runs/" ++ runId))).ok = true →
      extractRun (net (cfg.baseUrl ++ ("/runs/" ++ runId))).json = some r →
      (getRunDetails cfg net now runId st).1 = Except.ok r ∧
      (getRunDetails cfg net now runId st).2.2 =
        [cfg.baseUrl ++ ("/v0/runs/" ++ runId), cfg.baseUrl ++ ("/v1/runs/" ++ runId),
         cfg.baseUrl ++ ("/runs/" ++ runId)]) ∧
    (∀ (net : String → HttpResp RunBody) (st : ClientState RunBody),
      (net (cfg.baseUrl ++ ("/v0/runs/" ++ runId))).ok = false →
      (net (cfg.baseUrl ++ ("/v1/runs/" ++ runId))).ok = false →
      (net (cfg.baseUrl ++ ("/runs/" ++ runId))).ok = false →
      (getRunDetails cfg net now runId st).1 =
        Except.error ("Failed to get run details for " ++
          (runId ++ (". Last error: " ++
            apiErrMsg (net (cfg.baseUrl ++ ("/runs/" ++ runId))))))) ∧
    (∀ (net : String → HttpResp Unit) (st : ClientState Unit),
      (net (cfg.baseUrl ++ ("/v0/runs/" ++ (runId ++ "/cancel")))).ok = false →
      (net (cfg.baseUrl ++ ("/v1/runs/" ++ (runId ++ "/cancel")))).ok = false →
      (net (cfg.baseUrl ++ ("/runs/" ++ (runId ++ "/cancel")))).ok = true →
      (cancelRun cfg net now runId st).1 = Except.ok true ∧
      (cancelRun cfg net now runId st).2.2 =
        [cfg.baseUrl ++ ("/v0/runs/" ++ (runId ++ "/cancel")),
         cfg.baseUrl ++ ("/v1/runs/" ++ (runId ++ "/cancel")),
         cfg.baseUrl ++ ("/runs/" ++ (runId ++ "/cancel"))]) ∧
    (∀ (net : String → HttpResp Unit) (st : ClientState Unit),
      (net (cfg.baseUrl ++ ("/v0/runs/" ++ (runId ++ "/cancel")))).ok = false →
      (net (cfg.baseUrl ++ ("/v1/runs/" ++ (runId ++ "/cancel")))).ok = false →
      (net (cfg.baseUrl ++ ("/runs/" ++ (runId ++ "/cancel")))).ok = false →
      (cancelRun cfg net now runId st).1 =
        Except.error ("Failed to cancel run " ++
          (runId ++ (". Last error: " ++
            apiErrMsg (net (cfg.baseUrl ++ ("/runs/" ++ (runId ++ "/cancel")))))))) ∧
    (∀ (net : String → HttpResp Unit) (st : ClientState Unit),
      (net (cfg.baseUrl ++ ("/v0/runs/" ++ (runId ++ "/replay")))).ok = false →
      (net (cfg.baseUrl ++ ("/v1/runs/" ++ (runId ++ "/replay")))).ok = false →
      (net (cfg.baseUrl ++ ("/runs/" ++ (runId ++ "/replay")))).ok = true →
      (replayRun cfg net now runId st).1 = Except.ok true ∧
      (replayRun cfg net now runId st).2.2 =
        [cfg.baseUrl ++ ("/v0/runs/" ++ (runId ++ "/replay")),
         cfg.baseUrl ++ ("/v1/runs/" ++ (runId ++ "/replay")),
         cfg.baseUrl ++ ("/runs/" ++ (runId ++ "/replay"))]) ∧
    (∀ (net : String → HttpResp Unit) (st : ClientState Unit),
      (net (cfg.baseUrl ++ ("/v0/runs/" ++ (runId ++ "/replay")))).ok = false →
      (net (cfg.baseUrl ++ ("/v1/runs/" ++ (runId ++ "/replay")))).ok = false →
      (net (cfg.baseUrl ++ ("/runs/" ++ (runId ++ "/replay")))).ok = false →
      (net (cfg.baseUrl ++ ("/v0/runs/" ++ (runId ++ "/retry")))).ok = false →
      (net (cfg.baseUrl ++ ("/v1/runs/" ++ (runId ++ "/retry")))).ok = false →
      (net (cfg.baseUrl ++ ("/runs/" ++ (runId ++ "/retry")))).ok = false →
      (replayRun cfg net now runId st).1 =
        Except.error ("Failed to replay run " ++
          (runId ++ (". Last error: " ++
            apiErrMsg (net (cfg.baseUrl ++ ("/runs/" ++ (runId ++ "/retry")))))))) := by
  refine ⟨?_, ?_, ?_, ?_, ?_, ?_⟩
  · intro net st r h1 h2 h3 hx
    constructor <;>
      simp [getRunDetails, hloc, tryLoop, apiRequest, h1, h2, h3, hx]
  · intro net st h1 h2 h3
    simp [getRunDetails, hloc, tryLoop, apiRequest, h1, h2, h3]
  · intro net st h1 h2 h3
    constructor <;>
      simp [cancelRun, hloc, tryLoop, apiRequest, h1, h2, h3]
  · intro net st h1 h2 h3
    simp [cancelRun, hloc, tryLoop, apiRequest, h1, h2, h3]
  · intro net st h1 h2 h3
    constructor <;>
      simp [replayRun, hloc, tryLoop, apiRequest, h1, h2, h3]
  · intro net st h1 h2 h3 h4 h5 h6
    simp [replayRun, hloc, tryLoop, apiRequest, h1, h2, h3, h4, h5, h6]

end Inngest

namespace Inngest

/-- Witness for claim C3: a concrete network where only the third run-details
candidate path answers successfully; three URLs are called, in list order, and
the result is the run served by the third path. -/
theorem candidate_paths_order_witness :
    (getRunDetails
      ({ signingKey := "test-key", baseUrl := "https://api.inngest.com" } : InngestConfig)
      (fun u => if u = "https://api.inngest.com/runs/run-123"
        then ⟨true, 200, "OK", "",
          ⟨some (some ⟨"run-123", 0, "f1", 1, "env1", "ev1", RunStatus.Completed, none, none, none⟩),
           none⟩⟩
        else ⟨false, 404, "Not Found", "nf", ⟨none, none⟩⟩)
      "t0" "run-123" {}).1 =
      Except.ok ⟨"run-123", 0, "f1", 1, "env1", "ev1", RunStatus.Completed, none, none, none⟩ ∧
    (getRunDetails
      ({ signingKey := "test-key", baseUrl := "https://api.inngest.com" } : InngestConfig)
      (fun u => if u = "https://api.inngest.com/runs/run-123"
        then ⟨true, 200, "OK", "",
          ⟨some (some ⟨"run-123", 0, "f1", 1, "env1", "ev1", RunStatus.Completed, none, none, none⟩),
           none⟩⟩
        else ⟨false, 404, "Not Found", "nf", ⟨none, none⟩⟩)
      "t0" "run-123" {}).2.2 =
      ["https://api.inngest.com" ++ ("/v0/runs/" ++ "run-123"),
       "https://api.inngest.com" ++ ("/v1/runs/" ++ "run-123"),
       "https://api.inngest.com" ++ ("/runs/" ++ "run-123")] :=
  (candidate_paths_order
    ({ signingKey := "test-key", baseUrl := "https://api.inngest.com" } : InngestConfig)
    (by decide) "t0" "run-123").1
    (fun u => if u = "https://api.inngest.com/runs/run-123"
      then ⟨true, 200, "OK", "",
        ⟨some (some ⟨"run-123", 0, "f1", 1, "env1", "ev1", RunStatus.Completed, none, none, none⟩),
         none⟩⟩
      else ⟨false, 404, "Not Found", "nf", ⟨none, none⟩⟩)
    {} ⟨"run-123", 0, "f1", 1, "env1", "ev1", RunStatus.Completed, none, none, none⟩
    (by decide) (by decide) (by decide) (by decide)

/-- Claim C10: when every run-details candidate path answers with HTTP success
but a body that has neither a truthy `data` field nor a `run_id` key, the loop
moves on each time without touching the last-error diagnostic, calls all three
URLs, and ends with the aggregate error reporting `Unknown error`. -/
theorem http_success_without_run_continues (cfg : InngestConfig)
    (hloc : isLocal cfg.baseUrl = false) (now runId : String)
    (net : String → HttpResp RunBody) (st : ClientState RunBody)
    (h1 : (net (cfg.baseUrl ++ ("/v0/runs/" ++ runId))).ok = true)
    (hx1 : extractRun (net (cfg.baseUrl ++ ("/v0/runs/" ++ runId))).json = none)
    (h2 : (net (cfg.baseUrl ++ ("/v1/runs/" ++ runId))).ok = true)
    (hx2 : extractRun (net (cfg.baseUrl ++ ("/v1/runs/" ++ runId))).json = none)
    (h3 : (net (cfg.baseUrl ++ ("/runs/" ++ runId))).ok = true)
    (hx3 : extractRun (net (cfg.baseUrl ++ ("/runs/" ++ runId))).json = none) :
    (getRunDetails cfg net now runId st).1 =
      Except.error ("Failed to get run details for " ++
        (runId ++ (". Last error: " ++ "Unknown error"))) ∧
    (getRunDetails cfg net now runId st).2.1.lastError = st.lastError ∧
    (getRunDetails cfg net now runId st).2.2 =
      [cfg.baseUrl ++ ("/v0/runs/" ++ runId), cfg.baseUrl ++ ("/v1/runs/" ++ runId),
       cfg.baseUrl ++ ("/runs/" ++ runId)] := by
  refine ⟨?_, ?_, ?_⟩ <;>
    simp [getRunDetails, hloc, tryLoop, apiRequest, h1, h2, h3, hx1, hx2, hx3]

/-- Witness for claim C10: every path returns HTTP 200 with an empty object
body; the aggregate failure reports `Unknown error` after three calls. -/
theorem http_success_without_run_continues_witness :
    (getRunDetails
      ({ signingKey := "test-key", baseUrl := "https://api.inngest.com" } : InngestConfig)
      (fun _ => ⟨true, 200, "OK", "", ⟨none, none⟩⟩) "t0" "run-9" {}).1 =
      Except.error ("Failed to get run details for " ++
        ("run-9" ++ (". Last error: " ++ "Unknown error"))) ∧
    (getRunDetails
      ({ signingKey := "test-key", baseUrl := "https://api.inngest.com" } : InngestConfig)
      (fun _ => ⟨true, 200, "OK", "", ⟨none, none⟩⟩) "t0" "run-9" {}).2.2 =
      ["https://api.inngest.com" ++ ("/v0/runs/" ++ "run-9"),
       "https://api.inngest.com" ++ ("/v1/runs/" ++ "run-9"),
       "https://api.inngest.com" ++ ("/runs/" ++ "run-9")] := by
  refine ⟨?_, ?_⟩
  · exact (http_success_without_run_continues
      ({ signingKey := "test-key", baseUrl := "https://api.inngest.com" } : InngestConfig)
      (by decide) "t0" "run-9" (fun _ => ⟨true, 200, "OK", "", ⟨none, none⟩⟩) {}
      (by decide) (by decide) (by decide) (by decide) (by decide) (by decide)).1
  · exact (http_success_without_run_continues
      ({ signingKey := "test-key", baseUrl := "https://api.inngest.com" } : InngestConfig)
      (by decide) "t0" "run-9" (fun _ => ⟨true, 200, "OK", "", ⟨none, none⟩⟩) {}
      (by decide) (by decide) (by decide) (by decide) (by decide) (by decide)).2.2

end Inngest

namespace Inngest

/-- Parameter object of `InngestClient.bulkCancelRuns`. -/
structure BulkCancelParams where
  functionId : Option String := none
  startedAfter : Option String := none
  startedBefore : Option String := none
  condition : Option String := none
deriving DecidableEq

/-- JS truthiness of an optional string: absent and empty are both falsy. -/
def truthyStr : Option String → Option String
  | some s => if s == "" then none else some s
  | none => none

/-- JS truthiness of an optional number: absent and zero are both falsy. -/
def truthyInt : Option Int → Option Int
  | some d => if d == 0 then none else some d
  | none => none

/-- The JSON body built by `bulkCancelRuns`: each truthy input field is added
under its outgoing key, in source order. -/
def bulkCancelBody (p : BulkCancelParams) : List (String × String) :=
  (match truthyStr p.functionId with
   | some v => [("function_id", v)]
   | none => []) ++
  (match truthyStr p.startedAfter with
   | some v => [("started_after", v)]
   | none => []) ++
  (match truthyStr p.startedBefore with
   | some v => [("started_before", v)]
   | none => []) ++
  (match truthyStr p.condition with
   | some v => [("if", v)]
   | none => [])

/-- Method `InngestClient.bulkCancelRuns`: POST the built body to `/v1/cancellations`;
on failure over a local base URL, replace the error with the development-mode
message. Returns the result, the new state, and the body sent. -/
def bulkCancelRuns {α : Type} (cfg : InngestConfig) (now : String)
    (p : BulkCancelParams) (r : HttpResp α) (st : ClientState α) :
    Except String α × ClientState α × List (String × String) :=
  let call := apiRequest cfg now "/v1/cancellations" [] r st
  match call.result with
  | Except.ok v => (Except.ok v, call.state, bulkCancelBody p)
  | Except.error m =>
    if isLocal cfg.baseUrl then
      (Except.error
        "Bulk cancellation not available in development mode. Please use Inngest Cloud for run management features.",
       call.state, bulkCancelBody p)
    else (Except.error m, call.state, bulkCancelBody p)

/-- Claim C7 counterexample: supplying a function ID that is the empty string
is a supplied field, yet the truthiness guard drops it, so the body is empty
instead of holding a `function_id` key. -/
theorem bulkCancel_empty_string_cex :
    bulkCancelBody ({ functionId := some "" } : BulkCancelParams) = [] ∧
    hdrGet (bulkCancelBody ({ functionId := some "" } : BulkCancelParams))
      "function_id" = none := by
  constructor
  · decide
  · decide

/-- Claim C7 (amended): the outgoing bulk-cancel body holds exactly the
supplied non-empty optional fields (a supplied empty string is treated as
omitted), mapped to `function_id`, `started_after`, `started_before` and `if`;
in particular only a non-empty function ID yields the single-key body. -/
theorem bulkCancel_body_fields (p : BulkCancelParams) :
    (∀ k v, (k, v) ∈ bulkCancelBody p ↔
      ((k = "function_id" ∧ truthyStr p.functionId = some v) ∨
       (k = "started_after" ∧ truthyStr p.startedAfter = some v) ∨
       (k = "started_before" ∧ truthyStr p.startedBefore = some v) ∨
       (k = "if" ∧ truthyStr p.condition = some v))) ∧
    (∀ fid, fid ≠ "" →
      bulkCancelBody ({ functionId := some fid } : BulkCancelParams) =
        [("function_id", fid)]) := by
  constructor
  · intro k v
    simp only [bulkCancelBody, List.mem_append]
    cases hf : truthyStr p.functionId <;>
      cases ha : truthyStr p.startedAfter <;>
        cases hb : truthyStr p.startedBefore <;>
          cases hc : truthyStr p.condition <;>
            simp [Prod.ext_iff, and_comm, eq_comm] <;> tauto
  · intro fid hf
    have hne : (fid == "") = false := by
      simp only [beq_eq_false_iff_ne, ne_eq]
      exact hf
    simp [bulkCancelBody, truthyStr, hne]

/-- Witness for the amended claim C7: a body with all four fields supplied, and
the single-field case from the test suite. -/
theorem bulkCancel_body_fields_witness :
    (("started_after", "2024-01-01T00:00:00Z") ∈
      bulkCancelBody ({ functionId := some "func-123",
                        startedAfter := some "2024-01-01T00:00:00Z",
                        startedBefore := some "2024-01-01T12:00:00Z",
                        condition := some "status" } : BulkCancelParams)) ∧
    bulkCancelBody ({ functionId := some "func-123" } : BulkCancelParams) =
      [("function_id", "func-123")] := by
  constructor
  · exact ((bulkCancel_body_fields
      ({ functionId := some "func-123",
         startedAfter := some "2024-01-01T00:00:00Z",
         startedBefore := some "2024-01-01T12:00:00Z",
         condition := some "status" } : BulkCancelParams)).1
      "started_after" "2024-01-01T00:00:00Z").mpr
      (Or.inr (Or.inl ⟨rfl, by decide⟩))
  · exact (bulkCancel_body_fields
      ({ functionId := some "func-123" } : BulkCancelParams)).2 "func-123" (by decide)

end Inngest

namespace Inngest

/-- Rendering of `WorkflowRun.status` in template literals. -/
def statusStr : RunStatus → String
  | RunStatus.Running => "Running"
  | RunStatus.Completed => "Completed"
  | RunStatus.Failed => "Failed"
  | RunStatus.Cancelled => "Cancelled"
  | RunStatus.Paused => "Paused"

/-- Rendering of `WorkflowStep.status` in template literals. -/
def stepStatusStr : StepStatus → String
  | StepStatus.Running => "Running"
  | StepStatus.Completed => "Completed"
  | StepStatus.Failed => "Failed"
  | StepStatus.Skipped => "Skipped"

/-- The `forEach` body over steps in the `get_run_details` handler
(`src/index.ts`, lines 186-195), with the running index. -/
def stepChunks : Nat → List WorkflowStep → List String
  | _, [] => []
  | i, s :: t =>
    (["**" ++ (natToStr (i + 1) ++ (". " ++ (s.name ++ ("** (" ++ (stepStatusStr s.status ++ ")\n")))))] ++
     (match truthyInt s.duration_ms with
      | some d => ["   - Duration: " ++ (intToStr d ++ "ms\n")]
      | none => []) ++
     (match truthyStr s.error with
      | some e => ["   - Error: " ++ (e ++ "\n")]
      | none => []) ++
     ["\n"]) ++ stepChunks (i + 1) t

/-- The fixed note emitted when no step data is present. -/
def runStepsNote : String :=
  "\n> **Note:** Step-by-step execution timeline is only available in the Inngest dashboard (uses GraphQL). The REST API provides run-level details only."

/-- The steps section of the `get_run_details` handler: heading plus step
chunks when a non-empty steps array is present, else the fixed note. -/
def stepsSection : Option (List WorkflowStep) → List String
  | some steps =>
    if steps.length > 0 then
      ("\n## Steps (" ++ (natToStr steps.length ++ " found in run response)\n\n")) ::
        stepChunks 0 steps
    else [runStepsNote]
  | none => [runStepsNote]

/-- The text chunks appended by the `get_run_details` handler (`src/index.ts`,
lines 158-198). `fmt` stands for `new Date(x).toLocaleString()`. -/
def formatRunDetails (fmt : Int → String) (runId : String) (r : WorkflowRun) :
    List String :=
  ["# Run Details: " ++ (runId ++ "\n\n"),
   "**Run ID:** " ++ (r.run_id ++ "\n"),
   "**Function ID:** " ++ (r.function_id ++ "\n"),
   "**Function Version:** " ++ (intToStr r.function_version ++ "\n"),
   "**Environment ID:** " ++ (r.environment_id ++ "\n"),
   "**Event ID:** " ++ (r.event_id ++ "\n"),
   "**Status:** " ++ (statusStr r.status ++ "\n"),
   "**Started:** " ++ (fmt r.run_started_at ++ "\n")] ++
  (match r.ended_at with
   | some e =>
     ["**Ended:** " ++ (fmt e ++ "\n"),
      "**Duration:** " ++ (intToStr (jsRound (e - r.run_started_at)) ++ "s\n")]
   | none => []) ++
  (match r.output with
   | some o => ["\n**Output:**\n```json\n" ++ (o ++ "\n```\n")]
   | none => []) ++
  stepsSection r.steps

/-- The per-run chunks of the `get_event_runs` handler loop (`src/index.ts`,
lines 106-125), with the running index. -/
def eventRunChunks (fmt : Int → String) (i : Nat) (run : WorkflowRun) :
    List String :=
  ["## Run " ++ (natToStr (i + 1) ++ "\n"),
   "**Run ID:** " ++ (run.run_id ++ "\n"),
   "**Status:** " ++ (statusStr run.status ++ "\n"),
   "**Started:** " ++ (fmt run.run_started_at ++ "\n")] ++
  (match run.ended_at with
   | some e =>
     ["**Ended:** " ++ (fmt e ++ "\n"),
      "**Duration:** " ++ (intToStr (jsRound (e - run.run_started_at)) ++ "s\n")]
   | none => []) ++
  (match run.output with
   | some o => ["**Output:** ```json\n" ++ (o ++ "\n```\n")]
   | none => []) ++
  ["\n"]

/-- The whole `forEach` over the sliced run list in `get_event_runs`. -/
def eventRunsBody (fmt : Int → String) : Nat → List WorkflowRun → List String
  | _, [] => []
  | i, r :: t => eventRunChunks fmt i r ++ eventRunsBody fmt (i + 1) t

end Inngest

namespace Inngest

/-- A tool response at the MCP boundary: the text block and whether it is a
protocol-level error. The handlers in `src/index.ts` always return plain
content objects, never error responses. -/
structure ToolResponse where
  isError : Bool
  text : String

/-- The result object of `InngestClient.sendEvent`. -/
structure SendEventResult where
  id : String

/-- Outcome of an awaited client call: `Except.error m` models a thrown
`Error` whose `.message` is `m`. -/
def clientOutcome (α : Type) : Type := Except String α

/-- The `send_event` handler (`src/index.ts`, lines 49-79). `dataPretty`
stands for `JSON.stringify(data, null, 2)`. -/
def sendEventHandler (eventName dataPretty : String)
    (outcome : Except String SendEventResult) : ToolResponse :=
  match outcome with
  | Except.ok r =>
    ⟨false,
     "**Event sent successfully**\n\n**Event Name:** " ++
       (eventName ++ ("\n**Event ID:** " ++
         (r.id ++ ("\n**Data:** ```json\n" ++
           (dataPretty ++
            "\n```\n\nThe event has been sent to Inngest and will trigger any functions listening for this event.")))))⟩
  | Except.error m => ⟨false, "**Error sending event:** " ++ m⟩

/-- The `get_event_runs` handler (`src/index.ts`, lines 88-145). -/
def getEventRunsHandler (fmt : Int → String) (eventId : String) (limit : Nat)
    (outcome : Except String (List WorkflowRun)) : ToolResponse :=
  match outcome with
  | Except.ok runs =>
    if runs.length = 0 then
      ⟨false, "No runs found for event ID: " ++ eventId⟩
    else
      ⟨false,
       "# Event Runs: " ++ (eventId ++ "\n\n") ++
         ("**Total runs:** " ++ (natToStr runs.length ++ "\n\n")) ++
         String.join (eventRunsBody fmt 0 (runs.take limit))⟩
  | Except.error m => ⟨false, "Error getting event runs: " ++ m⟩

/-- The `get_run_details` handler (`src/index.ts`, lines 154-218). -/
def getRunDetailsHandler (fmt : Int → String) (runId : String)
    (outcome : Except String WorkflowRun) : ToolResponse :=
  match outcome with
  | Except.ok r => ⟨false, String.join (formatRunDetails fmt runId r)⟩
  | Except.error m => ⟨false, "Error getting run details: " ++ m⟩

/-- The two actions accepted by `manage_run`. -/
inductive RunAction
  | cancel | replay
deriving DecidableEq

/-- The `manage_run` handler (`src/index.ts`, lines 227-264). -/
def manageRunHandler (runId : String) (action : RunAction)
    (outcome : Except String Bool) : ToolResponse :=
  match outcome with
  | Except.ok _ =>
    ⟨false,
     match action with
     | RunAction.cancel => "Cancelled run " ++ runId
     | RunAction.replay => "Replayed run " ++ runId⟩
  | Except.error m => ⟨false, "Error managing run: " ++ m⟩

/-- Text `t` states the message `m`: `m` occurs verbatim inside `t`. -/
def statesMsg (t m : String) : Prop := ∃ pre post, t = pre ++ (m ++ post)

/-- Claim C8: every tool handler is total over client outcomes and always
returns a non-error response; when the client call threw, the text block
states the thrown message. Protocol-level failures can therefore only come
from the schema-validation layer in front of the handlers, never from a
client error. -/
theorem tool_handlers_catch_errors :
    (∀ (en dp : String) (o : Except String SendEventResult),
      (sendEventHandler en dp o).isError = false) ∧
    (∀ (fmt : Int → String) (ei : String) (lim : Nat)
        (o : Except String (List WorkflowRun)),
      (getEventRunsHandler fmt ei lim o).isError = false) ∧
    (∀ (fmt : Int → String) (ri : String) (o : Except String WorkflowRun),
      (getRunDetailsHandler fmt ri o).isError = false) ∧
    (∀ (ri : String) (a : RunAction) (o : Except String Bool),
      (manageRunHandler ri a o).isError = false) ∧
    (∀ en dp m, statesMsg (sendEventHandler en dp (Except.error m)).text m) ∧
    (∀ (fmt : Int → String) ei lim m,
      statesMsg (getEventRunsHandler fmt ei lim (Except.error m)).text m) ∧
    (∀ (fmt : Int → String) ri m,
      statesMsg (getRunDetailsHandler fmt ri (Except.error m)).text m) ∧
    (∀ ri a m, statesMsg (manageRunHandler ri a (Except.error m)).text m) := by
  refine ⟨?_, ?_, ?_, ?_, ?_, ?_, ?_, ?_⟩
  · intro en dp o
    cases o <;> rfl
  · intro fmt ei lim o
    cases o with
    | error m => rfl
    | ok runs =>
      by_cases h : runs.length = 0 <;> simp [getEventRunsHandler, h]
  · intro fmt ri o
    cases o <;> rfl
  · intro ri a o
    cases o <;> rfl
  · intro en dp m
    exact ⟨"**Error sending event:** ", "", by rw [String.append_empty]; rfl⟩
  · intro fmt ei lim m
    exact ⟨"Error getting event runs: ", "", by rw [String.append_empty]; rfl⟩
  · intro fmt ri m
    exact ⟨"Error getting run details: ", "", by rw [String.append_empty]; rfl⟩
  · intro ri a m
    exact ⟨"Error managing run: ", "", by rw [String.append_empty]; rfl⟩

end Inngest

namespace Inngest

lemma digitChar_isDigit (d : Nat) : (digitChar d).isDigit = true := by
  unfold digitChar
  split <;> decide

lemma beq_false_of_isDigit (x c : Char) (hx : x.isDigit = false)
    (hc : c.isDigit = true) : (x == c) = false := by
  cases h : x == c
  · rfl
  · exfalso
    have hxc : x = c := eq_of_beq h
    subst hxc
    rw [hx] at hc
    cases hc

lemma natToStrAux_head (fuel n : Nat) :
    ∃ c cs, natToStrAux (fuel + 1) n = c :: cs ∧ c.isDigit = true := by
  induction fuel generalizing n with
  | zero =>
    by_cases h : n < 10
    · exact ⟨digitChar n, [], by simp [natToStrAux, h], digitChar_isDigit n⟩
    · refine ⟨digitChar (n % 10), [], ?_, digitChar_isDigit _⟩
      simp [natToStrAux, h]
  | succ f ih =>
    by_cases h : n < 10
    · exact ⟨digitChar n, [], by simp [natToStrAux, h], digitChar_isDigit n⟩
    · obtain ⟨c, cs, hc, hd⟩ := ih (n / 10)
      refine ⟨c, cs ++ [digitChar (n % 10)], ?_, hd⟩
      have hunf : natToStrAux (f + 1 + 1) n =
          (if n < 10 then [digitChar n]
           else natToStrAux (f + 1) (n / 10) ++ [digitChar (n % 10)]) := rfl
      rw [hunf, if_neg h, hc]
      rfl

lemma natChars_head (n : Nat) :
    ∃ c cs, natChars n = c :: cs ∧ c.isDigit = true := natToStrAux_head n n

lemma leadMatch_take_false (pat a x : List Char)
    (h : leadMatch (pat.take a.length) a = false) :
    leadMatch pat (a ++ x) = false := by
  induction a generalizing pat with
  | nil => simp [leadMatch] at h
  | cons b bs ih =>
    cases pat with
    | nil => simp [leadMatch] at h
    | cons p ps =>
      have hstep : leadMatch (p :: ps.take bs.length) (b :: bs) =
          ((p == b) && leadMatch (ps.take bs.length) bs) := rfl
      rw [List.length_cons, List.take_succ_cons, hstep] at h
      have hgoal : leadMatch (p :: ps) ((b :: bs) ++ x) =
          ((p == b) && leadMatch ps (bs ++ x)) := rfl
      rw [hgoal]
      cases hpb : p == b
      · simp
      · rw [hpb] at h
        simp only [Bool.true_and] at h
        simp [ih ps h]

/-- The chunk `c` is not an Ended line and not a Duration line. -/
def noEndedDuration (c : String) : Prop :=
  strStarts c "**Ended:" = false ∧ strStarts c "**Duration:" = false

lemma strStarts_chunk_false (a x pat : String)
    (h : leadMatch (pat.data.take a.data.length) a.data = false) :
    strStarts (a ++ x) pat = false := by
  simp only [strStarts, String.data_append]
  exact leadMatch_take_false pat.data a.data x.data h

lemma ned_chunk (a x : String)
    (h1 : leadMatch (("**Ended:").data.take a.data.length) a.data = false)
    (h2 : leadMatch (("**Duration:").data.take a.data.length) a.data = false) :
    noEndedDuration (a ++ x) :=
  ⟨strStarts_chunk_false a x _ h1, strStarts_chunk_false a x _ h2⟩

lemma ned_plain (c : String)
    (h1 : strStarts c "**Ended:" = false)
    (h2 : strStarts c "**Duration:" = false) : noEndedDuration c := ⟨h1, h2⟩

lemma ned_step_title (i : Nat) (rest : String) :
    noEndedDuration ("**" ++ (natToStr (i + 1) ++ rest)) := by
  obtain ⟨c, cs, hc, hd⟩ := natChars_head (i + 1)
  have hdata : ("**" ++ (natToStr (i + 1) ++ rest)).data =
      '*' :: ('*' :: (c :: (cs ++ rest.data))) := by
    rw [String.data_append, String.data_append]
    show ['*', '*'] ++ (natChars (i + 1) ++ rest.data) = _
    rw [hc]
    rfl
  constructor
  · show leadMatch ("**Ended:").data ("**" ++ (natToStr (i + 1) ++ rest)).data = false
    rw [hdata]
    show (('*' == '*') &&
      (('*' == '*') && (('E' == c) && leadMatch "nded:".data (cs ++ rest.data)))) = false
    rw [beq_false_of_isDigit 'E' c (by decide) hd]
    simp
  · show leadMatch ("**Duration:").data ("**" ++ (natToStr (i + 1) ++ rest)).data = false
    rw [hdata]
    show (('*' == '*') &&
      (('*' == '*') && (('D' == c) && leadMatch "uration:".data (cs ++ rest.data)))) = false
    rw [beq_false_of_isDigit 'D' c (by decide) hd]
    simp

lemma stepChunks_ned (steps : List WorkflowStep) :
    ∀ (i : Nat) (c : String), c ∈ stepChunks i steps → noEndedDuration c := by
  induction steps with
  | nil =>
    intro i c hc
    simp [stepChunks] at hc
  | cons s t ih =>
    intro i c hc
    cases hd : truthyInt s.duration_ms <;> cases he : truthyStr s.error <;>
      simp only [stepChunks, hd, he, List.append_nil, List.nil_append,
        List.cons_append, List.append_assoc, List.mem_append, List.mem_cons,
        List.mem_singleton, List.not_mem_nil, or_false, false_or] at hc
    · rcases hc with hc | hc | hc
      · exact hc ▸ ned_step_title i _
      · exact hc ▸ ned_plain "\n" (by decide) (by decide)
      · exact ih (i + 1) c hc
    · rcases hc with hc | hc | hc | hc
      · exact hc ▸ ned_step_title i _
      · exact hc ▸ ned_chunk "   - Error: " _ (by decide) (by decide)
      · exact hc ▸ ned_plain "\n" (by decide) (by decide)
      · exact ih (i + 1) c hc
    · rcases hc with hc | hc | hc | hc
      · exact hc ▸ ned_step_title i _
      · exact hc ▸ ned_chunk "   - Duration: " _ (by decide) (by decide)
      · exact hc ▸ ned_plain "\n" (by decide) (by decide)
      · exact ih (i + 1) c hc
    · rcases hc with hc | hc | hc | hc | hc
      · exact hc ▸ ned_step_title i _
      · exact hc ▸ ned_chunk "   - Duration: " _ (by decide) (by decide)
      · exact hc ▸ ned_chunk "   - Error: " _ (by decide) (by decide)
      · exact hc ▸ ned_plain "\n" (by decide) (by decide)
      · exact ih (i + 1) c hc

lemma stepsSection_ned (os : Option (List WorkflowStep)) :
    ∀ c, c ∈ stepsSection os → noEndedDuration c := by
  intro c hc
  cases os with
  | none =>
    simp only [stepsSection, List.mem_singleton] at hc
    exact hc ▸ ned_plain runStepsNote (by decide) (by decide)
  | some steps =>
    by_cases h : steps.length > 0
    · simp only [stepsSection, if_pos h, List.mem_cons] at hc
      rcases hc with hc | hc
      · exact hc ▸ ned_chunk "\n## Steps (" _ (by decide) (by decide)
      · exact stepChunks_ned steps 0 c hc
    · simp only [stepsSection, if_neg h, List.mem_singleton] at hc
      exact hc ▸ ned_plain runStepsNote (by decide) (by decide)

end Inngest

namespace Inngest

/-- Claim C9: a rendered run without an end time contains no Ended line and no
Duration line, in both the run-details rendering and the per-run event-runs
rendering; a run with an end time renders a Duration line whose value is the
millisecond difference divided by 1000 and rounded to the nearest whole
second (`jsRound`), suffixed with `s`. -/
theorem run_rendering_duration (fmt : Int → String) (runId : String) (i : Nat)
    (r : WorkflowRun) :
    (r.ended_at = none →
      (∀ c ∈ formatRunDetails fmt runId r, noEndedDuration c) ∧
      (∀ c ∈ eventRunChunks fmt i r, noEndedDuration c)) ∧
    (∀ e, r.ended_at = some e →
      (("**Duration:** " ++ (intToStr (jsRound (e - r.run_started_at)) ++ "s\n")) ∈
        formatRunDetails fmt runId r ∧
       ("**Duration:** " ++ (intToStr (jsRound (e - r.run_started_at)) ++ "s\n")) ∈
        eventRunChunks fmt i r)) := by
  constructor
  · intro hnone
    constructor
    · intro c hc
      cases ho : r.output <;>
        simp only [formatRunDetails, hnone, ho, List.append_nil, List.nil_append,
          List.cons_append, List.append_assoc, List.mem_append, List.mem_cons,
          List.mem_singleton, List.not_mem_nil, false_or, or_false] at hc
      · rcases hc with hc | hc | hc | hc | hc | hc | hc | hc | hc
        · exact hc ▸ ned_chunk "# Run Details: " _ (by decide) (by decide)
        · exact hc ▸ ned_chunk "**Run ID:** " _ (by decide) (by decide)
        · exact hc ▸ ned_chunk "**Function ID:** " _ (by decide) (by decide)
        · exact hc ▸ ned_chunk "**Function Version:** " _ (by decide) (by decide)
        · exact hc ▸ ned_chunk "**Environment ID:** " _ (by decide) (by decide)
        · exact hc ▸ ned_chunk "**Event ID:** " _ (by decide) (by decide)
        · exact hc ▸ ned_chunk "**Status:** " _ (by decide) (by decide)
        · exact hc ▸ ned_chunk "**Started:** " _ (by decide) (by decide)
        · exact stepsSection_ned r.steps c hc
      · rcases hc with hc | hc | hc | hc | hc | hc | hc | hc | hc | hc
        · exact hc ▸ ned_chunk "# Run Details: " _ (by decide) (by decide)
        · exact hc ▸ ned_chunk "**Run ID:** " _ (by decide) (by decide)
        · exact hc ▸ ned_chunk "**Function ID:** " _ (by decide) (by decide)
        · exact hc ▸ ned_chunk "**Function Version:** " _ (by decide) (by decide)
        · exact hc ▸ ned_chunk "**Environment ID:** " _ (by decide) (by decide)
        · exact hc ▸ ned_chunk "**Event ID:** " _ (by decide) (by decide)
        · exact hc ▸ ned_chunk "**Status:** " _ (by decide) (by decide)
        · exact hc ▸ ned_chunk "**Started:** " _ (by decide) (by decide)
        · exact hc ▸ ned_chunk "\n**Output:**\n```json\n" _ (by decide) (by decide)
        · exact stepsSection_ned r.steps c hc
    · intro c hc
      cases ho : r.output <;>
        simp only [eventRunChunks, hnone, ho, List.append_nil, List.nil_append,
          List.cons_append, List.append_assoc, List.mem_append, List.mem_cons,
          List.mem_singleton, List.not_mem_nil, false_or, or_false] at hc
      · rcases hc with hc | hc | hc | hc | hc
        · exact hc ▸ ned_chunk "## Run " _ (by decide) (by decide)
        · exact hc ▸ ned_chunk "**Run ID:** " _ (by decide) (by decide)
        · exact hc ▸ ned_chunk "**Status:** " _ (by decide) (by decide)
        · exact hc ▸ ned_chunk "**Started:** " _ (by decide) (by decide)
        · exact hc ▸ ned_plain "\n" (by decide) (by decide)
      · rcases hc with hc | hc | hc | hc | hc | hc
        · exact hc ▸ ned_chunk "## Run " _ (by decide) (by decide)
        · exact hc ▸ ned_chunk "**Run ID:** " _ (by decide) (by decide)
        · exact hc ▸ ned_chunk "**Status:** " _ (by decide) (by decide)
        · exact hc ▸ ned_chunk "**Started:** " _ (by decide) (by decide)
        · exact hc ▸ ned_chunk "**Output:** ```json\n" _ (by decide) (by decide)
        · exact hc ▸ ned_plain "\n" (by decide) (by decide)
  · intro e he
    constructor
    · simp [formatRunDetails, he, List.mem_append]
    · simp [eventRunChunks, he, List.mem_append]

end Inngest

namespace Inngest

/-- Witness for claim C9: a run whose start and end are 90000 ms apart renders
its Duration line as `90s`. -/
theorem run_rendering_duration_witness :
    ("**Duration:** " ++ (intToStr (jsRound ((90000 : Int) - 0)) ++ "s\n")) ∈
      formatRunDetails (fun _ => "1/1/2024, 12:00:00 AM") "run-123"
        ⟨"run-123", 0, "f1", 1, "env1", "ev1", RunStatus.Completed, some 90000, none, none⟩ ∧
    ("**Duration:** " ++ (intToStr (jsRound ((90000 : Int) - 0)) ++ "s\n")) =
      "**Duration:** 90s\n" := by
  constructor
  · exact ((run_rendering_duration (fun _ => "1/1/2024, 12:00:00 AM") "run-123" 0
      ⟨"run-123", 0, "f1", 1, "env1", "ev1", RunStatus.Completed, some 90000, none, none⟩).2
      90000 rfl).1
  · decide

end Inngest
